/-
Verification of the generic-device-plugin device discovery and allocation
engine against its natural-language specification.

The Go sources are shallowly embedded: pure fragments become Lean
functions, the filesystem glob is a function parameter, machine integers
are Nat (all values involved are small and no overflow occurs in the
modelled code paths), Go panics (out-of-bounds indexing) are modelled by
Option.none, and early-return error handling by Except.
-/
import Mathlib

namespace GDP

/-! ### Bytes and encodings -/

/-- UTF-8 encoding of a single character, as a list of byte values. -/
def utf8Char (c : Char) : List Nat :=
  let n := c.toNat
  if n < 128 then [n]
  else if n < 2048 then [192 + n / 64, 128 + n % 64]
  else if n < 65536 then [224 + n / 4096, 128 + (n / 64) % 64, 128 + n % 64]
  else [240 + n / 262144, 128 + (n / 4096) % 64, 128 + (n / 64) % 64, 128 + n % 64]

/-- UTF-8 bytes of a string, as Go obtains them from a string value. -/
def utf8Bytes (s : String) : List Nat :=
  s.data.flatMap utf8Char

/-- The lowercase hexadecimal digit for a value below 16. -/
def hexDigit (n : Nat) : Char :=
  "0123456789abcdef".data.getD n '0'

/-- Lowercase hexadecimal rendering of a byte list, as produced by the
x format verb of the Go fmt package applied to a byte slice. -/
def hexLower (bytes : List Nat) : String :=
  String.mk (bytes.flatMap (fun b => [hexDigit (b / 16), hexDigit (b % 16)]))

/-! ### SHA-1, following FIPS 180, as used by the Go crypto sha1 package -/

/-- Reduce to a 32-bit word. -/
def w32 (x : Nat) : Nat := x % 4294967296

/-- Left rotation of a 32-bit word. -/
def rotl (n x : Nat) : Nat :=
  w32 (Nat.lor (w32 (Nat.shiftLeft x n)) (Nat.shiftRight x (32 - n)))

/-- Big-endian byte decomposition with the given width. -/
def beBytes (width x : Nat) : List Nat :=
  (List.range width).map (fun i => Nat.shiftRight x (8 * (width - 1 - i)) % 256)

/-- SHA-1 message padding: a 1-bit, zeros to 56 mod 64, 64-bit length. -/
def sha1Pad (msg : List Nat) : List Nat :=
  let rem := (msg.length + 1) % 64
  msg ++ [128] ++ List.replicate ((120 - rem) % 64) 0 ++ beBytes 8 (msg.length * 8)

/-- Split a byte list into 64-byte blocks; the fuel bounds the recursion
depth and is always sufficient when set to the list length. -/
def chunk64Go (fuel : Nat) (l : List Nat) : List (List Nat) :=
  match fuel, l with
  | _, [] => []
  | 0, _ => []
  | fuel + 1, b :: l => ((b :: l).take 64) :: chunk64Go fuel ((b :: l).drop 64)

/-- Split a byte list into 64-byte blocks. -/
def chunk64 (l : List Nat) : List (List Nat) :=
  chunk64Go l.length l

/-- The sixteen 32-bit big-endian words of one 64-byte block. -/
def blockWords (block : List Nat) : List Nat :=
  (List.range 16).map (fun i =>
    block.getD (4 * i) 0 * 16777216 + block.getD (4 * i + 1) 0 * 65536 +
    block.getD (4 * i + 2) 0 * 256 + block.getD (4 * i + 3) 0)

/-- Message-schedule expansion from 16 to 80 words. -/
def expandWords (ws : List Nat) : List Nat :=
  (List.range 64).foldl
    (fun acc _ =>
      acc ++ [rotl 1 (Nat.xor (Nat.xor (acc.getD (acc.length - 3) 0) (acc.getD (acc.length - 8) 0))
        (Nat.xor (acc.getD (acc.length - 14) 0) (acc.getD (acc.length - 16) 0)))])
    ws

/-- Round function and constant for round i. -/
def sha1F (i b c d : Nat) : Nat × Nat :=
  if i < 20 then
    (Nat.lor (Nat.land b c) (Nat.land (Nat.xor b 4294967295) d), 1518500249)
  else if i < 40 then (Nat.xor (Nat.xor b c) d, 1859775393)
  else if i < 60 then
    (Nat.lor (Nat.lor (Nat.land b c) (Nat.land b d)) (Nat.land c d), 2400959708)
  else (Nat.xor (Nat.xor b c) d, 3395469782)

/-- One SHA-1 compression step over the five-word state. -/
def sha1Round (st : Nat × Nat × Nat × Nat × Nat) (iw : Nat × Nat) :
    Nat × Nat × Nat × Nat × Nat :=
  let (a, b, c, d, e) := st
  let (f, k) := sha1F iw.1 b c d
  (w32 (rotl 5 a + f + e + k + iw.2), a, rotl 30 b, c, d)

/-- Process one 64-byte block, updating the running hash state. -/
def sha1Block (h : Nat × Nat × Nat × Nat × Nat) (block : List Nat) :
    Nat × Nat × Nat × Nat × Nat :=
  let ws := expandWords (blockWords block)
  let (a, b, c, d, e) :=
    (((List.range 80).map (fun i => (i, ws.getD i 0))).foldl sha1Round h)
  (w32 (h.1 + a), w32 (h.2.1 + b), w32 (h.2.2.1 + c), w32 (h.2.2.2.1 + d), w32 (h.2.2.2.2 + e))

/-- SHA-1 digest of a byte list: twenty bytes. -/
def sha1 (msg : List Nat) : List Nat :=
  let h := (chunk64 (sha1Pad msg)).foldl sha1Block
    (1732584193, 4023233417, 2562383102, 271733878, 3285377520)
  beBytes 4 h.1 ++ beBytes 4 h.2.1 ++ beBytes 4 h.2.2.1 ++ beBytes 4 h.2.2.2.1 ++
    beBytes 4 h.2.2.2.2

/-! ### Sorting of glob matches

Go sort.Strings orders strings by their bytes; the embedding compares
UTF-8 byte lists lexicographically, which agrees with Go on every input. -/

/-- Lexicographic order on byte lists. -/
def leBytes : List Nat → List Nat → Bool
  | [], _ => true
  | _ :: _, [] => false
  | a :: as, b :: bs => if a < b then true else if b < a then false else leBytes as bs

/-- String order used by Go sort.Strings: byte-wise lexicographic. -/
def strLe (s t : String) : Bool :=
  leBytes (utf8Bytes s) (utf8Bytes t)

/-- Insert a string into a sorted list. -/
def insertSorted (s : String) : List String → List String
  | [] => [s]
  | t :: ts => if strLe s t then s :: t :: ts else t :: insertSorted s ts

/-- Sorting of the glob match list, as sort.Strings in the source. -/
def sortStrings (l : List String) : List String :=
  l.foldr insertSorted []

/-! ### Data model

Embeds the configuration types of deviceplugin (generic.go in the groups
revision, also src/unnamed/part_001 lines 41-108) and the kubelet
v1beta1 types the plugin populates. -/

/-- v1beta1.Healthy. -/
def Healthy : String := "Healthy"

/-- v1beta1.DeviceSpec: a host device mapped into the container. -/
structure V1DeviceSpec where
  hostPath : String
  containerPath : String
  permissions : String
deriving DecidableEq

/-- v1beta1.Mount: a host path bind-mounted into the container. -/
structure V1Mount where
  hostPath : String
  containerPath : String
  readOnly : Bool
deriving DecidableEq

/-- The plugin's device record: v1beta1.Device (ID, Health) plus the
deviceSpecs and mounts it carries. -/
structure device where
  id : String
  health : String
  deviceSpecs : List V1DeviceSpec
  mounts : List V1Mount
deriving DecidableEq

/-- PathType constant DevicePathType. -/
def DevicePathType : String := "Device"

/-- PathType constant MountPathType. -/
def MountPathType : String := "Mount"

/-- Path: one globbed member of a device group. -/
structure Path where
  path : String
  mountPath : String
  permissions : String
  readOnly : Bool
  type : String
deriving DecidableEq

/-- Group: members that are scheduled together, Count times. -/
structure Group where
  paths : List Path
  count : Nat
deriving DecidableEq

/-- DeviceSpec: a named resource built from groups. -/
structure DeviceSpec where
  name : String
  groups : List Group
deriving DecidableEq

/-! ### Path discovery

Embeds GenericPlugin.discover of src/unnamed/part_001 lines 159-214,
identical to GenericPlugin.discoverPath of src/deviceplugin/path.go
lines 45-100.  The filesystem is abstracted by a resolve function giving
each pattern its glob matches; out-of-bounds slice indexing (a Go panic)
is Option.none; the incremental sha1 hasher is the list of bytes written
so far, hashed when Sum is taken. -/

/-- The mountPath defaulting of the source (path.go lines 74-77): an
empty MountPath defaults to the matched host path, any other value is
used verbatim. -/
def srcMountPath (p : Path) (host : String) : String :=
  if p.mountPath = "" then host else p.mountPath

/-- One iteration of the member loop body (path.go lines 73-93): append
a device spec or a mount according to the member type, then write the
host path to the hasher. -/
def memberStep (rule : Path → String → String) (p : Path) (host : String)
    (acc : List Nat × List V1DeviceSpec × List V1Mount) :
    List Nat × List V1DeviceSpec × List V1Mount :=
  let mp := rule p host
  let acc1 :=
    if p.type = DevicePathType then
      (acc.1, acc.2.1 ++ [⟨host, mp, p.permissions⟩], acc.2.2)
    else if p.type = MountPathType then
      (acc.1, acc.2.1, acc.2.2 ++ [⟨host, mp, p.readOnly⟩])
    else (acc.1, acc.2.1, acc.2.2)
  (acc1.1 ++ utf8Bytes host, acc1.2.1, acc1.2.2)

/-- The member loop: for each group member take its i-th sorted match
(none models the Go index-out-of-range panic when the match list is too
short) and run the loop body. -/
def buildFold (rule : Path → String → String) (i : Nat) :
    List (Path × List String) → (List Nat × List V1DeviceSpec × List V1Mount) →
    Option (List Nat × List V1DeviceSpec × List V1Mount)
  | [], acc => some acc
  | pl :: rest, acc =>
    match pl.2.get? i with
    | none => none
    | some host => buildFold rule i rest (memberStep rule pl.1 host acc)

/-- Build the device for match index i and repetition j: seed the hasher
with the decimal repetition index, run the member loop, then take the
hex-encoded digest as the id. -/
def buildDeviceWith (rule : Path → String → String) (g : Group)
    (lists : List (List String)) (i j : Nat) : Option device :=
  (buildFold rule i (g.paths.zip lists) (utf8Bytes (Nat.repr j), [], [])).map
    (fun acc => ⟨hexLower (sha1 acc.1), Healthy, acc.2.1, acc.2.2⟩)

/-- The sorted glob match lists of a group, one per member. -/
def groupMatchLists (resolve : String → List String) (g : Group) : List (List String) :=
  g.paths.map (fun p => sortStrings (resolve p.path))

/-- The length computation of the source (path.go lines 59-62): starting
from zero, take the match count whenever the running value is zero or
the match count is smaller. -/
def lengthCalc (lists : List (List String)) : Nat :=
  lists.foldl (fun length ms => if length = 0 ∨ ms.length < length then ms.length else length) 0

/-- The inner repetition loop over j. -/
def collectJs (rule : Path → String → String) (g : Group)
    (lists : List (List String)) (i : Nat) : List Nat → Option (List device)
  | [] => some []
  | j :: js => do
    let d ← buildDeviceWith rule g lists i j
    let rest ← collectJs rule g lists i js
    some (d :: rest)

/-- The outer match-index loop over i. -/
def collectIs (rule : Path → String → String) (g : Group)
    (lists : List (List String)) : List Nat → Option (List device)
  | [] => some []
  | i :: is => do
    let row ← collectJs rule g lists i (List.range g.count)
    let rest ← collectIs rule g lists is
    some (row ++ rest)

/-- Discovery for one group. -/
def discoverGroupWith (rule : Path → String → String)
    (resolve : String → List String) (g : Group) : Option (List device) :=
  let lists := groupMatchLists resolve g
  collectIs rule g lists (List.range (lengthCalc lists))

/-- Discovery over the configured groups, in order. -/
def discoverGroupsWith (rule : Path → String → String)
    (resolve : String → List String) : List Group → Option (List device)
  | [] => some []
  | g :: gs => do
    let ds ← discoverGroupWith rule resolve g
    let rest ← discoverGroupsWith rule resolve gs
    some (ds ++ rest)

/-- GenericPlugin.discover (src/unnamed/part_001 lines 159-214; the same
algorithm is GenericPlugin.discoverPath in src/deviceplugin/path.go). -/
def discover (resolve : String → List String) (ds : DeviceSpec) : Option (List device) :=
  discoverGroupsWith srcMountPath resolve ds.groups

/-! ### Inventory refresh

Embeds GenericPlugin.refreshDevices (src/unnamed/part_001 lines 219-253,
identically src/deviceplugin/generic.go lines 106-140).  The Go map from
id to device is an association list; only membership and values matter
to the modelled code. -/

/-- Lookup in the device map. -/
def lookupDM (m : List (String × device)) (k : String) : Option device :=
  (m.find? (fun kv => kv.1 == k)).map (fun kv => kv.2)

/-- Map insert with overwrite. -/
def insertDM (m : List (String × device)) (k : String) (d : device) :
    List (String × device) :=
  m.filter (fun kv => !(kv.1 == k)) ++ [(k, d)]

/-- The post-discovery body of refreshDevices: build the new map while
maintaining the equal flag exactly as the source does (`var equal bool`
at line 233 initializes it to false; the loop only ever assigns false),
then the removal check, returning the changed-report and the new map. -/
def refreshStep (old : List (String × device)) (devs : List device) :
    Bool × List (String × device) :=
  let r := devs.foldl
    (fun acc d => (insertDM acc.1 d.id d, if (lookupDM old d.id).isSome then acc.2 else false))
    (([] : List (String × device)), false)
  if r.2 = false then (false, r.1)
  else if old.any (fun kv => (lookupDM r.1 kv.1).isNone) then (false, r.1)
  else (true, r.1)

/-! ### Allocation

Embeds GenericPlugin.Allocate (src/unnamed/part_001 lines 261-285).
The two fmt.Errorf failures are distinguished as an error type; the Go
function returns a nil response together with the error, so no partial
result survives a failure. -/

/-- The two allocation failures of the source. -/
inductive AllocError where
  | notExist (id : String)
  | notHealthy (id : String)
deriving DecidableEq

/-- One container allocation response: the devices and mounts lists. -/
structure ContainerResponse where
  devices : List V1DeviceSpec
  mounts : List V1Mount
deriving DecidableEq

/-- The device-id loop of Allocate for one container request. -/
def allocateIds (m : List (String × device)) :
    List String → ContainerResponse → Except AllocError ContainerResponse
  | [], resp => .ok resp
  | id :: ids, resp =>
    match lookupDM m id with
    | none => .error (.notExist id)
    | some d =>
      if d.health = Healthy then
        allocateIds m ids ⟨resp.devices ++ d.deviceSpecs, resp.mounts ++ d.mounts⟩
      else .error (.notHealthy id)

/-- The container-request loop of Allocate. -/
def allocateReqs (m : List (String × device)) :
    List (List String) → List ContainerResponse → Except AllocError (List ContainerResponse)
  | [], acc => .ok acc
  | r :: rs, acc =>
    match allocateIds m r ⟨[], []⟩ with
    | .error e => .error e
    | .ok resp => allocateReqs m rs (acc ++ [resp])

/-- GenericPlugin.Allocate over the current device map. -/
def Allocate (m : List (String × device)) (reqs : List (List String)) :
    Except AllocError (List ContainerResponse) :=
  allocateReqs m reqs []

/-! ### USB discovery

Embeds the usbDevice type and BusPath of src/deviceplugin/usb.go (the
usbDevBus format string at line 34 is "/dev/bus/usb/%+04d/%+04d") and
searchUSBDevices (usb.go lines 369-377). -/

/-- Go fmt's %+04d verb for an unsigned value: the plus flag always
writes a sign, the zero flag pads to width 4 counting the sign. -/
def goPlus04d (n : Nat) : String :=
  "+" ++ String.mk (List.replicate (3 - (Nat.repr n).length) '0') ++ Nat.repr n

/-- usbDevice: a physical USB device. -/
structure usbDevice where
  Vendor : Nat
  Product : Nat
  Bus : Nat
  BusDevice : Nat
deriving DecidableEq

/-- usbDevice.BusPath (usb.go lines 82-84): the usbDevBus format string
applied to the bus and device numbers. -/
def usbDevice.BusPath (dev : usbDevice) : String :=
  "/dev/bus/usb/" ++ goPlus04d dev.Bus ++ "/" ++ goPlus04d dev.BusDevice

/-- searchUSBDevices (usb.go lines 369-377): the devices matching the
given vendor and product exactly. -/
def searchUSBDevices (devices : List usbDevice) (vendor product : Nat) : List usbDevice :=
  devices.filter (fun dev => dev.Vendor == vendor && dev.Product == product)

/-- Modelled from the spec: the USB device record of the serial-aware
scanner, whose implementation is not among the sources (only its tests
are); enumerate returns vendor, product, bus, busDevice and an optional
serial attribute read from the device directory. -/
structure usbDeviceS where
  vendor : Nat
  product : Nat
  bus : Nat
  busDevice : Nat
  serial : Option String
deriving DecidableEq

/-- Modelled from the spec: the serial-aware second-stage search, whose
implementation is not among the sources (only its tests are): it returns
every enumerated device whose vendor and product match exactly, and
whose serial matches literally when the specification gives one. -/
def searchUSBDevicesS (devices : List usbDeviceS) (vendor product : Nat)
    (serial : Option String) : List usbDeviceS :=
  devices.filter (fun dev =>
    dev.vendor == vendor && dev.product == product &&
      match serial with
      | none => true
      | some s => dev.serial == some s)

/-! ### Specification-side descriptions used to state the theorems -/

/-- The minimum match count over a group's match lists (zero when the
group has no members). -/
def minLen (lists : List (List String)) : Nat :=
  match lists.map List.length with
  | [] => 0
  | n :: ns => ns.foldl min n

/-- The i-th sorted match of every member, in member order. -/
def pairsAtIdx (pz : List (Path × List String)) (i : Nat) : List (Path × String) :=
  pz.map (fun pl => (pl.1, pl.2.getD i ""))

/-- The hash input contributed by the member host paths: their UTF-8
bytes concatenated in member order. -/
def bytesOf (pairs : List (Path × String)) : List Nat :=
  (pairs.map (fun ph => utf8Bytes ph.2)).flatten

/-- The device specs assembled from the members of Device type. -/
def specsOf (rule : Path → String → String) (pairs : List (Path × String)) :
    List V1DeviceSpec :=
  pairs.filterMap (fun ph =>
    if ph.1.type = DevicePathType then some ⟨ph.2, rule ph.1 ph.2, ph.1.permissions⟩
    else none)

/-- The mounts assembled from the members of Mount type. -/
def mountsOf (rule : Path → String → String) (pairs : List (Path × String)) :
    List V1Mount :=
  pairs.filterMap (fun ph =>
    if ph.1.type = DevicePathType then none
    else if ph.1.type = MountPathType then some ⟨ph.2, rule ph.1 ph.2, ph.1.readOnly⟩
    else none)

/-- The unit assembled from one member/host pairing and repetition j:
id is the hex SHA-1 of the decimal index followed by the member host
paths in order. -/
def deviceFromPairs (rule : Path → String → String) (pairs : List (Path × String))
    (j : Nat) : device :=
  ⟨hexLower (sha1 (utf8Bytes (Nat.repr j) ++ bytesOf pairs)), Healthy,
    specsOf rule pairs, mountsOf rule pairs⟩

/-- Total lookup into the device map with a default record. -/
def lookupD (m : List (String × device)) (id : String) : device :=
  (lookupDM m id).getD ⟨"", "", [], []⟩

/-! ### Concrete inputs used by the evaluation and witness theorems -/

/-- A pattern with no matches, as in the test case named only-one-exists. -/
def pNE : Path := ⟨"/dev/does/not/exist", "", "mrw", false, "Device"⟩

/-- A pattern with one match, as in the test case named only-one-exists. -/
def pE : Path := ⟨"/dev/does/exist", "", "mrw", false, "Device"⟩

/-- The group of the test case named only-one-exists: the zero-match
member listed first. -/
def dsOnlyOne : DeviceSpec := ⟨"only-one-exists", [⟨[pNE, pE], 1⟩]⟩

/-- The same group with the members listed in the other order. -/
def dsOnlyOneRev : DeviceSpec := ⟨"only-one-exists", [⟨[pE, pNE], 1⟩]⟩

/-- Filesystem view for the only-one-exists test case. -/
def resolveOnlyOne : String → List String :=
  fun s => if s = "/dev/does/exist" then ["/dev/does/exist"] else []

/-- A member whose mountPath names a directory, as in the test case
named multiple with mount directory. -/
def pSerialDir : Path := ⟨"/dev/ttyUSB*", "/dev/serial/", "mrw", false, "Device"⟩

/-- The serial device specification of that test case. -/
def dsSerialDir : DeviceSpec := ⟨"serial", [⟨[pSerialDir], 1⟩]⟩

/-- Filesystem view exposing four ttyUSB devices. -/
def resolveSerialDir : String → List String :=
  fun s => if s = "/dev/ttyUSB*" then
    ["/dev/ttyUSB1", "/dev/ttyUSB0", "/dev/ttyUSB3", "/dev/ttyUSB2"] else []

/-- A group whose first pattern matches four paths and whose second
matches two, the cardinality-capping example of the spec. -/
def groupAB : Group :=
  ⟨[⟨"/dev/A*", "", "mrw", false, "Device"⟩, ⟨"/dev/B*", "", "mrw", false, "Device"⟩], 1⟩

/-- Filesystem view for the cardinality-capping example. -/
def resolveAB : String → List String :=
  fun s => if s = "/dev/A*" then ["/dev/A0", "/dev/A1", "/dev/A2", "/dev/A3"]
    else if s = "/dev/B*" then ["/dev/B0", "/dev/B1"] else []

/-- A one-member, one-match device specification. -/
def dsTiny : DeviceSpec := ⟨"tiny", [⟨[⟨"x", "", "mrw", false, "Device"⟩], 1⟩]⟩

/-- Filesystem view with a single short path, keeping digests cheap to
check by kernel evaluation. -/
def resolveTiny : String → List String := fun s => if s = "x" then ["b"] else []

/-- A healthy stored device record used by the allocation witnesses. -/
def dA : device := ⟨"a", Healthy, [⟨"/dev/a", "/dev/a", "mrw"⟩], []⟩

/-- An enumerated USB device whose vendor and product match the witness
specification but whose serial does not. -/
def usbDevW : usbDeviceS := ⟨4176, 1031, 3, 22, some "51"⟩

/-! ### Helper lemmas -/

theorem insertSorted_length (s : String) :
    ∀ l : List String, (insertSorted s l).length = l.length + 1
  | [] => rfl
  | t :: ts => by
    simp only [insertSorted]
    split
    · simp
    · simp [insertSorted_length s ts]

theorem sortStrings_length : ∀ l : List String, (sortStrings l).length = l.length
  | [] => rfl
  | s :: ss => by
    simp only [sortStrings, List.foldr_cons]
    rw [insertSorted_length]
    simpa [sortStrings] using sortStrings_length ss

theorem sortStrings_ne_nil (l : List String) (h : l ≠ []) : sortStrings l ≠ [] := by
  intro hs
  apply h
  have := sortStrings_length l
  rw [hs] at this
  exact List.length_eq_zero.mp this.symm

theorem foldl_min_le_init : ∀ (ns : List Nat) (a : Nat), ns.foldl min a ≤ a
  | [], a => le_refl a
  | m :: ms, a => le_trans (foldl_min_le_init ms (min a m)) (min_le_left a m)

theorem foldl_min_le_mem : ∀ (ns : List Nat) (a n : Nat), n ∈ ns → ns.foldl min a ≤ n
  | m :: ms, a, n, h => by
    rcases List.mem_cons.mp h with h1 | h2
    · subst h1
      exact le_trans (foldl_min_le_init ms (min a n)) (min_le_right a n)
    · exact foldl_min_le_mem ms (min a m) n h2

theorem minLen_le_mem (lists : List (List String)) (l : List String) (h : l ∈ lists) :
    minLen lists ≤ l.length := by
  match lists, h with
  | m :: ms, h =>
    simp only [minLen, List.map_cons]
    rcases List.mem_cons.mp h with h1 | h2
    · subst h1
      exact foldl_min_le_init _ _
    · exact foldl_min_le_mem _ _ _ (List.mem_map_of_mem List.length h2)

theorem lengthCalc_fold_pos :
    ∀ (lists : List (List String)) (a : Nat), 0 < a → (∀ l ∈ lists, 0 < l.length) →
      lists.foldl (fun length ms => if length = 0 ∨ ms.length < length then ms.length else length) a =
        lists.foldl (fun m l => min m l.length) a
  | [], a, _, _ => rfl
  | m :: ms, a, ha, h => by
    have hm : 0 < m.length := h m (List.mem_cons_self m ms)
    have hstep : (if a = 0 ∨ m.length < a then m.length else a) = min a m.length := by
      rcases lt_or_ge m.length a with hlt | hge
      · simp [hlt, Nat.min_eq_right (le_of_lt hlt)]
      · have : ¬ (a = 0 ∨ m.length < a) := by
          push_neg
          exact ⟨Nat.pos_iff_ne_zero.mp ha, hge⟩
        simp [this, Nat.min_eq_left hge]
    simp only [List.foldl_cons, hstep]
    exact lengthCalc_fold_pos ms (min a m.length) (lt_min ha hm)
      (fun l hl => h l (List.mem_cons_of_mem m hl))

theorem lengthCalc_eq_minLen (lists : List (List String)) (h : ∀ l ∈ lists, l ≠ []) :
    lengthCalc lists = minLen lists := by
  match lists with
  | [] => rfl
  | m :: ms =>
    have hm : 0 < m.length :=
      List.length_pos.mpr (h m (List.mem_cons_self m ms))
    have hms : ∀ l ∈ ms, 0 < l.length := fun l hl =>
      List.length_pos.mpr (h l (List.mem_cons_of_mem m hl))
    simp only [lengthCalc, List.foldl_cons, minLen, List.map_cons, true_or, if_true]
    rw [lengthCalc_fold_pos ms m.length hm hms, List.foldl_map]

theorem buildFold_eq (rule : Path → String → String) (i : Nat) :
    ∀ (pz : List (Path × List String)) (acc : List Nat × List V1DeviceSpec × List V1Mount),
      (∀ pl ∈ pz, i < pl.2.length) →
      buildFold rule i pz acc =
        some (acc.1 ++ bytesOf (pairsAtIdx pz i),
              acc.2.1 ++ specsOf rule (pairsAtIdx pz i),
              acc.2.2 ++ mountsOf rule (pairsAtIdx pz i))
  | [], acc, _ => by simp [buildFold, pairsAtIdx, bytesOf, specsOf, mountsOf]
  | pl :: pz, acc, h => by
    have hlt : i < pl.2.length := h pl (List.mem_cons_self pl pz)
    have hget : pl.2.get? i = some (pl.2.getD i "") := by
      simp [List.getD_eq_getElem?_getD, List.getElem?_eq_getElem hlt, List.get?_eq_getElem?]
    have ih := buildFold_eq rule i pz (memberStep rule pl.1 (pl.2.getD i "") acc)
      (fun q hq => h q (List.mem_cons_of_mem pl hq))
    simp only [buildFold, hget]
    rw [ih]
    simp only [memberStep, pairsAtIdx, bytesOf, specsOf, mountsOf, List.map_cons,
      List.filterMap_cons, List.flatten_cons]
    by_cases hD : pl.1.type = DevicePathType
    · simp [hD, DevicePathType, MountPathType, List.append_assoc]
    · by_cases hM : pl.1.type = MountPathType
      · simp [hD, hM, DevicePathType, MountPathType, List.append_assoc]
      · simp [hD, hM, List.append_assoc]

theorem buildFold_some_lt (rule : Path → String → String) (i : Nat) :
    ∀ (pz : List (Path × List String)) (acc : List Nat × List V1DeviceSpec × List V1Mount)
      (res : List Nat × List V1DeviceSpec × List V1Mount),
      buildFold rule i pz acc = some res → ∀ pl ∈ pz, i < pl.2.length
  | [], _, _, _, pl, hm => absurd hm (List.not_mem_nil pl)
  | q :: pz, acc, res, hfold, pl, hm => by
    revert hfold
    simp only [buildFold]
    cases hget : q.2.get? i with
    | none => intro hfold; cases hfold
    | some host =>
      intro hfold
      rcases List.mem_cons.mp hm with h1 | h2
      · subst h1
        exact (List.get?_eq_some.mp hget).1
      · exact buildFold_some_lt rule i pz _ res hfold pl h2

theorem buildDeviceWith_eq (rule : Path → String → String) (g : Group)
    (lists : List (List String)) (i j : Nat)
    (h : ∀ pl ∈ g.paths.zip lists, i < pl.2.length) :
    buildDeviceWith rule g lists i j =
      some (deviceFromPairs rule (pairsAtIdx (g.paths.zip lists) i) j) := by
  rw [buildDeviceWith, buildFold_eq rule i _ _ h]
  simp [deviceFromPairs]

theorem buildDeviceWith_some (rule : Path → String → String) (g : Group)
    (lists : List (List String)) (i j : Nat) (d : device)
    (h : buildDeviceWith rule g lists i j = some d) :
    d = deviceFromPairs rule (pairsAtIdx (g.paths.zip lists) i) j := by
  have hlt : ∀ pl ∈ g.paths.zip lists, i < pl.2.length := by
    rcases Option.map_eq_some'.mp h with ⟨acc, hacc, _⟩
    exact buildFold_some_lt rule i _ _ acc hacc
  rw [buildDeviceWith_eq rule g lists i j hlt] at h
  exact (Option.some_inj.mp h).symm

theorem collectJs_eq (rule : Path → String → String) (g : Group)
    (lists : List (List String)) (i : Nat)
    (h : ∀ pl ∈ g.paths.zip lists, i < pl.2.length) :
    ∀ js : List Nat, collectJs rule g lists i js =
      some (js.map (fun j => deviceFromPairs rule (pairsAtIdx (g.paths.zip lists) i) j))
  | [] => rfl
  | j :: js => by
    simp [collectJs, buildDeviceWith_eq rule g lists i j h, collectJs_eq rule g lists i h js]

theorem collectIs_eq (rule : Path → String → String) (g : Group)
    (lists : List (List String)) :
    ∀ is : List Nat, (∀ i ∈ is, ∀ pl ∈ g.paths.zip lists, i < pl.2.length) →
      collectIs rule g lists is =
        some (is.flatMap (fun i => (List.range g.count).map
          (fun j => deviceFromPairs rule (pairsAtIdx (g.paths.zip lists) i) j)))
  | [], _ => rfl
  | i :: is, h => by
    simp [collectIs, collectJs_eq rule g lists i (h i (List.mem_cons_self i is)),
      collectIs_eq rule g lists is (fun i' hi' => h i' (List.mem_cons_of_mem i hi'))]

theorem collectJs_some_mem (rule : Path → String → String) (g : Group)
    (lists : List (List String)) (i : Nat) :
    ∀ (js : List Nat) (row : List device), collectJs rule g lists i js = some row →
      ∀ d ∈ row, ∃ j ∈ js, buildDeviceWith rule g lists i j = some d
  | [], row, h, d, hd => by
    simp only [collectJs, Option.some_inj] at h
    subst h
    cases hd
  | j :: js, row, h, d, hd => by
    revert h
    simp only [collectJs, Option.bind_eq_bind]
    cases hb : buildDeviceWith rule g lists i j with
    | none => intro h; cases h
    | some d0 =>
      cases hr : collectJs rule g lists i js with
      | none => intro h; cases h
      | some rest =>
        simp only [Option.some_bind, Option.some_inj]
        intro h
        subst h
        rcases List.mem_cons.mp hd with h1 | h2
        · exact ⟨j, List.mem_cons_self j js, h1 ▸ hb⟩
        · rcases collectJs_some_mem rule g lists i js rest hr d h2 with ⟨j', hj', hb'⟩
          exact ⟨j', List.mem_cons_of_mem j hj', hb'⟩

theorem collectIs_some_mem (rule : Path → String → String) (g : Group)
    (lists : List (List String)) :
    ∀ (is : List Nat) (units : List device), collectIs rule g lists is = some units →
      ∀ d ∈ units, ∃ i ∈ is, ∃ j ∈ List.range g.count,
        buildDeviceWith rule g lists i j = some d
  | [], units, h, d, hd => by
    simp only [collectIs, Option.some_inj] at h
    subst h
    cases hd
  | i :: is, units, h, d, hd => by
    revert h
    simp only [collectIs, Option.bind_eq_bind]
    cases hrow : collectJs rule g lists i (List.range g.count) with
    | none => intro h; cases h
    | some row =>
      cases hrest : collectIs rule g lists is with
      | none => intro h; cases h
      | some rest =>
        simp only [Option.some_bind, Option.some_inj]
        intro h
        subst h
        rcases List.mem_append.mp hd with h1 | h2
        · rcases collectJs_some_mem rule g lists i (List.range g.count) row hrow d h1 with ⟨j, hj, hb⟩
          exact ⟨i, List.mem_cons_self i is, j, hj, hb⟩
        · rcases collectIs_some_mem rule g lists is rest hrest d h2 with ⟨i', hi', j, hj, hb⟩
          exact ⟨i', List.mem_cons_of_mem i hi', j, hj, hb⟩

theorem discoverGroupsWith_some_mem (rule : Path → String → String)
    (resolve : String → List String) :
    ∀ (gs : List Group) (units : List device),
      discoverGroupsWith rule resolve gs = some units →
      ∀ d ∈ units, ∃ g ∈ gs, ∃ part, discoverGroupWith rule resolve g = some part ∧ d ∈ part
  | [], units, h, d, hd => by
    simp only [discoverGroupsWith, Option.some_inj] at h
    subst h
    cases hd
  | g :: gs, units, h, d, hd => by
    revert h
    simp only [discoverGroupsWith, Option.bind_eq_bind]
    cases hpart : discoverGroupWith rule resolve g with
    | none => intro h; cases h
    | some part =>
      cases hrest : discoverGroupsWith rule resolve gs with
      | none => intro h; cases h
      | some rest =>
        simp only [Option.some_bind, Option.some_inj]
        intro h
        subst h
        rcases List.mem_append.mp hd with h1 | h2
        · exact ⟨g, List.mem_cons_self g gs, part, hpart, h1⟩
        · rcases discoverGroupsWith_some_mem rule resolve gs rest hrest d h2 with ⟨g', hg', part', hp', hd'⟩
          exact ⟨g', List.mem_cons_of_mem g hg', part', hp', hd'⟩

theorem refresh_fold_snd (old : List (String × device)) :
    ∀ (devs : List device) (m : List (String × device)),
      ((devs.foldl
        (fun acc d => (insertDM acc.1 d.id d, if (lookupDM old d.id).isSome then acc.2 else false))
        (m, false)).2 = false)
  | [], _ => rfl
  | d :: devs, m => by
    simp only [List.foldl_cons]
    have hstep : (if (lookupDM old d.id).isSome then false else false) = false := by
      split <;> rfl
    rw [hstep]
    exact refresh_fold_snd old devs (insertDM m d.id d)

theorem refreshStep_snd (old : List (String × device)) (devs : List device) :
    (refreshStep old devs).2 =
      (devs.foldl
        (fun acc d => (insertDM acc.1 d.id d, if (lookupDM old d.id).isSome then acc.2 else false))
        ([], false)).1 := by
  simp only [refreshStep]
  split
  · rfl
  · split <;> rfl

theorem insertDM_mem (m : List (String × device)) (k : String) (d : device) :
    ∀ kv ∈ insertDM m k d, kv ∈ m ∨ kv = (k, d) := by
  intro kv hkv
  rcases List.mem_append.mp hkv with h1 | h2
  · exact Or.inl (List.mem_of_mem_filter h1)
  · simp only [List.mem_singleton] at h2
    exact Or.inr h2

theorem refresh_fold_vals (old : List (String × device)) (P : device → Prop) :
    ∀ (devs : List device) (m : List (String × device)) (b : Bool),
      (∀ kv ∈ m, P kv.2) → (∀ d ∈ devs, P d) →
      ∀ kv ∈ (devs.foldl
        (fun acc d => (insertDM acc.1 d.id d, if (lookupDM old d.id).isSome then acc.2 else false))
        (m, b)).1, P kv.2
  | [], m, b, hm, _, kv, hkv => hm kv hkv
  | d :: devs, m, b, hm, hd, kv, hkv => by
    simp only [List.foldl_cons] at hkv
    refine refresh_fold_vals old P devs (insertDM m d.id d) _ ?_
      (fun d' h' => hd d' (List.mem_cons_of_mem d h')) kv hkv
    intro kv' hkv'
    rcases insertDM_mem m d.id d kv' hkv' with h1 | h2
    · exact hm kv' h1
    · rw [h2]
      exact hd d (List.mem_cons_self d devs)

theorem buildDeviceWith_health (rule : Path → String → String) (g : Group)
    (lists : List (List String)) (i j : Nat) (d : device)
    (h : buildDeviceWith rule g lists i j = some d) : d.health = Healthy := by
  rcases Option.map_eq_some'.mp h with ⟨acc, _, hd⟩
  rw [← hd]

theorem discover_healthy (resolve : String → List String) (ds : DeviceSpec)
    (devs : List device) (h : discover resolve ds = some devs) :
    ∀ d ∈ devs, d.health = Healthy := by
  intro d hd
  rcases discoverGroupsWith_some_mem srcMountPath resolve ds.groups devs h d hd with
    ⟨g, _, part, hp, hdp⟩
  simp only [discoverGroupWith] at hp
  rcases collectIs_some_mem srcMountPath g (groupMatchLists resolve g) _ part hp d hdp with
    ⟨i, _, j, _, hb⟩
  exact buildDeviceWith_health srcMountPath g (groupMatchLists resolve g) i j d hb

theorem lookupDM_some_mem (m : List (String × device)) (k : String) (d : device)
    (h : lookupDM m k = some d) : ∃ k', (k', d) ∈ m := by
  rcases Option.map_eq_some'.mp h with ⟨kv, hfind, hv⟩
  refine ⟨kv.1, ?_⟩
  rw [← hv]
  simpa using List.mem_of_find?_eq_some hfind

theorem allocateIds_no_unhealthy (m : List (String × device))
    (hm : ∀ kv ∈ m, kv.2.health = Healthy) :
    ∀ (ids : List String) (resp : ContainerResponse) (x : String),
      allocateIds m ids resp ≠ .error (.notHealthy x)
  | [], resp, x => by simp [allocateIds]
  | id :: ids, resp, x => by
    simp only [allocateIds]
    cases hlk : lookupDM m id with
    | none => simp
    | some d =>
      have hh : d.health = Healthy := by
        rcases lookupDM_some_mem m id d hlk with ⟨k', hk'⟩
        exact hm (k', d) hk'
      dsimp only
      rw [if_pos hh]
      exact allocateIds_no_unhealthy m hm ids _ x

theorem allocateReqs_no_unhealthy (m : List (String × device))
    (hm : ∀ kv ∈ m, kv.2.health = Healthy) :
    ∀ (rs : List (List String)) (acc : List ContainerResponse) (x : String),
      allocateReqs m rs acc ≠ .error (.notHealthy x)
  | [], acc, x => by simp [allocateReqs]
  | r :: rs, acc, x => by
    simp only [allocateReqs]
    cases hr : allocateIds m r ⟨[], []⟩ with
    | error e =>
      intro heq
      have he : e = .notHealthy x := by
        simpa using heq
      exact allocateIds_no_unhealthy m hm r ⟨[], []⟩ x (he ▸ hr)
    | ok resp => exact allocateReqs_no_unhealthy m hm rs (acc ++ [resp]) x

theorem allocateIds_ok_of (m : List (String × device)) :
    ∀ (ids : List String),
      (∀ id ∈ ids, ∃ d, lookupDM m id = some d ∧ d.health = Healthy) →
      ∀ resp : ContainerResponse, allocateIds m ids resp =
        .ok ⟨resp.devices ++ ids.flatMap (fun id => (lookupD m id).deviceSpecs),
             resp.mounts ++ ids.flatMap (fun id => (lookupD m id).mounts)⟩
  | [], _, resp => by simp [allocateIds]
  | id :: ids, h, resp => by
    rcases h id (List.mem_cons_self id ids) with ⟨d, hlk, hh⟩
    have ih := allocateIds_ok_of m ids (fun i hi => h i (List.mem_cons_of_mem id hi))
      ⟨resp.devices ++ d.deviceSpecs, resp.mounts ++ d.mounts⟩
    simp only [allocateIds, hlk, if_pos hh]
    rw [ih]
    simp [lookupD, hlk, List.append_assoc]

theorem allocateIds_ok_implies (m : List (String × device)) :
    ∀ (ids : List String) (resp : ContainerResponse) (out : ContainerResponse),
      allocateIds m ids resp = .ok out →
      ∀ id ∈ ids, ∃ d, lookupDM m id = some d ∧ d.health = Healthy
  | [], _, _, _, id, hid => absurd hid (List.not_mem_nil id)
  | id0 :: ids, resp, out, h, id, hid => by
    revert h
    simp only [allocateIds]
    cases hlk : lookupDM m id0 with
    | none => intro h; cases h
    | some d =>
      dsimp only
      by_cases hh : d.health = Healthy
      · rw [if_pos hh]
        intro h
        rcases List.mem_cons.mp hid with h1 | h2
        · subst h1
          exact ⟨d, hlk, hh⟩
        · exact allocateIds_ok_implies m ids _ out h id h2
      · rw [if_neg hh]
        intro h
        cases h

theorem allocateReqs_ok_of (m : List (String × device)) :
    ∀ (rs : List (List String)),
      (∀ r ∈ rs, ∀ id ∈ r, ∃ d, lookupDM m id = some d ∧ d.health = Healthy) →
      ∀ acc : List ContainerResponse, allocateReqs m rs acc =
        .ok (acc ++ rs.map (fun r =>
          ⟨r.flatMap (fun id => (lookupD m id).deviceSpecs),
           r.flatMap (fun id => (lookupD m id).mounts)⟩))
  | [], _, acc => by simp [allocateReqs]
  | r :: rs, h, acc => by
    have h1 := allocateIds_ok_of m r (h r (List.mem_cons_self r rs)) ⟨[], []⟩
    simp only [allocateReqs, h1]
    simp only [List.nil_append]
    have ih := allocateReqs_ok_of m rs (fun r' hr' => h r' (List.mem_cons_of_mem r hr'))
      (acc ++ [⟨r.flatMap (fun id => (lookupD m id).deviceSpecs),
                r.flatMap (fun id => (lookupD m id).mounts)⟩])
    refine ih.trans ?_
    simp

theorem allocateReqs_ok_implies (m : List (String × device)) :
    ∀ (rs : List (List String)) (acc : List ContainerResponse) (out : List ContainerResponse),
      allocateReqs m rs acc = .ok out →
      ∀ r ∈ rs, ∀ id ∈ r, ∃ d, lookupDM m id = some d ∧ d.health = Healthy
  | [], _, _, _, r, hr => absurd hr (List.not_mem_nil r)
  | r0 :: rs, acc, out, h, r, hr => by
    revert h
    simp only [allocateReqs]
    cases hids : allocateIds m r0 ⟨[], []⟩ with
    | error e => intro h; cases h
    | ok resp =>
      intro h
      rcases List.mem_cons.mp hr with h1 | h2
      · subst h1
        exact allocateIds_ok_implies m r ⟨[], []⟩ resp hids
      · exact allocateReqs_ok_implies m rs (acc ++ [resp]) out h r h2

theorem hexDigit_mem (n : Nat) : hexDigit n ∈ "0123456789abcdef".data := by
  unfold hexDigit
  by_cases h : n < "0123456789abcdef".data.length
  · rw [List.getD_eq_getElem?_getD, List.getElem?_eq_getElem h]
    exact List.getElem_mem h
  · rw [List.getD_eq_default _ _ (le_of_not_lt h)]
    decide

theorem hexLower_mem (bytes : List Nat) (c : Char) (hc : c ∈ (hexLower bytes).data) :
    c ∈ "0123456789abcdef".data := by
  rcases List.mem_flatMap.mp hc with ⟨b, _, hcb⟩
  rcases List.mem_cons.mp hcb with h1 | h2
  · rw [h1]
    exact hexDigit_mem _
  · rcases List.mem_cons.mp h2 with h3 | h4
    · rw [h3]
      exact hexDigit_mem _
    · cases h4

/-! ### Claim theorems -/

/-- Claim C1: refreshDevices is claimed to report unchanged (true)
exactly when the discovered id set equals the previously stored one.
In the source the equal flag (var equal bool, part_001 line 233) is
initialized to false and the loop only ever assigns false to it, so
every successful refresh reports changed: the embedded refresh logic
returns false for every previous map and every discovery result,
including id-set-equal consecutive refreshes. -/
theorem refreshDevices_always_reports_changed (old : List (String × device))
    (devs : List device) : (refreshStep old devs).1 = false := by
  have h2 := refresh_fold_snd old devs []
  simp only [refreshStep]
  rw [if_pos h2]

/-- Claim C2: a non-optional zero-match pattern is claimed to make its
group contribute zero units without failing, in any member order.  In
the source a zero-match list resets the running length to zero, so a
later non-empty match list reinstates a positive length and the member
loop then indexes the empty match list out of bounds (a Go panic,
Option.none here).  Evaluated on the repo's own only-one-exists test
input: the zero-match member listed first fails, while the reverse
order yields zero units normally. -/
theorem discover_zero_match_order_panic :
    discover resolveOnlyOne dsOnlyOne = none ∧
    discover resolveOnlyOne dsOnlyOneRev = some [] := by
  constructor <;> decide

/-- Claim C3: the synthesized USB host path is claimed to use 3-digit
zero-padded bus and device numbers, such as /dev/bus/usb/003/022 for
bus 3, device 22.  The source's format string (usb.go line 34) uses the
verb with a plus flag, which always writes a sign, so the path for bus
3, device 22 is /dev/bus/usb/+003/+022. -/
theorem busPath_sign_padded :
    usbDevice.BusPath ⟨4176, 1031, 3, 22⟩ = "/dev/bus/usb/+003/+022" ∧
    usbDevice.BusPath ⟨4176, 1031, 3, 22⟩ ≠ "/dev/bus/usb/003/022" := by
  constructor <;> decide

set_option maxRecDepth 40000 in
/-- Claim C4: a mountPath ending in a path separator is claimed to give
each unit a container path equal to that directory joined with the
match's base name.  The source (path.go lines 74-77) uses any non-empty
MountPath verbatim: on the repo's own multiple-with-mount-directory
test input all four units' container paths equal /dev/serial/ rather
than the joined names expected by that test. -/
theorem mountPath_directory_not_joined :
    (discover resolveSerialDir dsSerialDir).map
        (fun units => units.map (fun d => d.deviceSpecs.map (fun e => e.containerPath))) =
      some [["/dev/serial/"], ["/dev/serial/"], ["/dev/serial/"], ["/dev/serial/"]] ∧
    (discover resolveSerialDir dsSerialDir).map
        (fun units => units.map (fun d => d.deviceSpecs.map (fun e => e.containerPath))) ≠
      some [["/dev/serial/ttyUSB0"], ["/dev/serial/ttyUSB1"],
            ["/dev/serial/ttyUSB2"], ["/dev/serial/ttyUSB3"]] := by
  have h : (discover resolveSerialDir dsSerialDir).map
      (fun units => units.map (fun d => d.deviceSpecs.map (fun e => e.containerPath))) =
      some [["/dev/serial/"], ["/dev/serial/"], ["/dev/serial/"], ["/dev/serial/"]] := by
    decide
  refine ⟨h, ?_⟩
  rw [h]
  decide

/-- Claim C5: when every pattern of a path group matches at least one
path, the group emits exactly min-match-count times count units, the
i-th unit row assembled by zipping the i-th entry of each member's
sorted match list, and matches beyond the minimum index discarded. -/
theorem discoverGroup_caps_at_min_times_count (resolve : String → List String) (g : Group)
    (h : ∀ p ∈ g.paths, resolve p.path ≠ []) :
    ∃ units, discoverGroupWith srcMountPath resolve g = some units ∧
      units.length = minLen (groupMatchLists resolve g) * g.count ∧
      units = (List.range (minLen (groupMatchLists resolve g))).flatMap
        (fun i => (List.range g.count).map
          (fun j => deviceFromPairs srcMountPath
            (pairsAtIdx (g.paths.zip (groupMatchLists resolve g)) i) j)) := by
  have hne : ∀ l ∈ groupMatchLists resolve g, l ≠ [] := by
    intro l hl
    rcases List.mem_map.mp hl with ⟨p, hp, hpe⟩
    rw [← hpe]
    exact sortStrings_ne_nil _ (h p hp)
  have hlen : lengthCalc (groupMatchLists resolve g) = minLen (groupMatchLists resolve g) :=
    lengthCalc_eq_minLen _ hne
  have hvalid : ∀ i ∈ List.range (lengthCalc (groupMatchLists resolve g)),
      ∀ pl ∈ g.paths.zip (groupMatchLists resolve g), i < pl.2.length := by
    intro i hi pl hpl
    have h1 : i < lengthCalc (groupMatchLists resolve g) := List.mem_range.mp hi
    have h2 : pl.2 ∈ groupMatchLists resolve g := (List.of_mem_zip hpl).2
    exact lt_of_lt_of_le h1 (hlen ▸ minLen_le_mem _ pl.2 h2)
  have hcoll := collectIs_eq srcMountPath g (groupMatchLists resolve g)
    (List.range (lengthCalc (groupMatchLists resolve g))) hvalid
  refine ⟨(List.range (lengthCalc (groupMatchLists resolve g))).flatMap
    (fun i => (List.range g.count).map
      (fun j => deviceFromPairs srcMountPath
        (pairsAtIdx (g.paths.zip (groupMatchLists resolve g)) i) j)), ?_, ?_, ?_⟩
  · simp only [discoverGroupWith]
    exact hcoll
  · simp [List.length_flatMap, Function.comp_def, List.length_map, List.length_range,
      List.map_const', List.sum_replicate, smul_eq_mul, hlen]
  · rw [hlen]

/-- Claim C6: every discovered unit's id is the lowercase hexadecimal
SHA-1 digest of exactly the UTF-8 bytes of the decimal repetition index
j followed by the UTF-8 bytes of each member's matched host path at one
sorted match index, in member declaration order. -/
theorem unit_id_sha1_of_index_and_paths (resolve : String → List String) (ds : DeviceSpec)
    (units : List device) (h : discover resolve ds = some units) :
    ∀ d ∈ units, ∃ g ∈ ds.groups, ∃ i j,
      i < lengthCalc (groupMatchLists resolve g) ∧ j < g.count ∧
      d.id = hexLower (sha1 (utf8Bytes (Nat.repr j) ++
        bytesOf (pairsAtIdx (g.paths.zip (groupMatchLists resolve g)) i))) ∧
      ∀ c ∈ d.id.data, c ∈ "0123456789abcdef".data := by
  intro d hd
  rcases discoverGroupsWith_some_mem srcMountPath resolve ds.groups units h d hd with
    ⟨g, hg, part, hp, hdp⟩
  simp only [discoverGroupWith] at hp
  rcases collectIs_some_mem srcMountPath g (groupMatchLists resolve g) _ part hp d hdp with
    ⟨i, hi, j, hj, hb⟩
  have hchar := buildDeviceWith_some srcMountPath g (groupMatchLists resolve g) i j d hb
  refine ⟨g, hg, i, j, List.mem_range.mp hi, List.mem_range.mp hj, ?_, ?_⟩
  · rw [hchar]
    rfl
  · rw [hchar]
    intro c hc
    exact hexLower_mem _ c hc

/-- Claim C7: Allocate fails the whole call when any requested id is
absent (no partial result), and when every requested id is present and
Healthy it returns, per container and in request order, exactly the
requested units' device specs and mounts, duplicates repeated. -/
theorem allocate_all_or_nothing (m : List (String × device)) (reqs : List (List String)) :
    ((∃ r ∈ reqs, ∃ id ∈ r, lookupDM m id = none) →
      ∃ e, Allocate m reqs = .error e) ∧
    ((∀ r ∈ reqs, ∀ id ∈ r, ∃ d, lookupDM m id = some d ∧ d.health = Healthy) →
      Allocate m reqs = .ok (reqs.map (fun r =>
        ⟨r.flatMap (fun id => (lookupD m id).deviceSpecs),
         r.flatMap (fun id => (lookupD m id).mounts)⟩))) := by
  constructor
  · rintro ⟨r, hr, id, hid, hnone⟩
    cases hA : Allocate m reqs with
    | error e => exact ⟨e, rfl⟩
    | ok out =>
      rcases allocateReqs_ok_implies m reqs [] out hA r hr id hid with ⟨d, hlk, _⟩
      rw [hnone] at hlk
      cases hlk
  · intro hgood
    have := allocateReqs_ok_of m reqs hgood []
    simpa [Allocate] using this

/-- Claim C8 (spec-modelled): the serial-aware search returns exactly
the enumerated devices matching vendor, product and the specified
serial; when no device's serial equals the specified one, the search
returns nothing even if vendor and product match. -/
theorem searchUSB_serial_exact (devs : List usbDeviceS) (v p : Nat) (s : String) :
    searchUSBDevicesS devs v p (some s) =
      devs.filter (fun d => d.vendor == v && d.product == p && d.serial == some s) ∧
    ((∀ d ∈ devs, d.serial ≠ some s) → searchUSBDevicesS devs v p (some s) = []) := by
  constructor
  · rfl
  · intro h
    rw [searchUSBDevicesS]
    rw [List.filter_eq_nil_iff]
    intro d hd
    simp [h d hd]

/-- Claim C10: discovery only ever constructs Healthy records, every
record stored by a refresh is Healthy, and Allocate's not-healthy
error branch is unreachable against a refreshed snapshot. -/
theorem devices_always_healthy (resolve : String → List String) (ds : DeviceSpec)
    (devs : List device) (old : List (String × device)) (reqs : List (List String))
    (h : discover resolve ds = some devs) :
    (∀ d ∈ devs, d.health = Healthy) ∧
    (∀ kv ∈ (refreshStep old devs).2, kv.2.health = Healthy) ∧
    (∀ x, Allocate (refreshStep old devs).2 reqs ≠ .error (.notHealthy x)) := by
  have h1 := discover_healthy resolve ds devs h
  have h2 : ∀ kv ∈ (refreshStep old devs).2, kv.2.health = Healthy := by
    rw [refreshStep_snd]
    exact refresh_fold_vals old (fun d => d.health = Healthy) devs [] false
      (fun kv hkv => absurd hkv (List.not_mem_nil kv)) h1
  refine ⟨h1, h2, ?_⟩
  intro x
  exact allocateReqs_no_unhealthy _ h2 reqs [] x

/-! ### Witnesses -/

/-- Witness for claim C5 on the spec's cardinality-capping example: one
pattern matching four paths and one matching two yields a group with
minimum two and count one. -/
theorem discoverGroup_caps_witness :
    (∀ p ∈ groupAB.paths, resolveAB p.path ≠ []) ∧
    minLen (groupMatchLists resolveAB groupAB) = 2 ∧ groupAB.count = 1 ∧
    (∃ units, discoverGroupWith srcMountPath resolveAB groupAB = some units ∧
      units.length = minLen (groupMatchLists resolveAB groupAB) * groupAB.count ∧
      units = (List.range (minLen (groupMatchLists resolveAB groupAB))).flatMap
        (fun i => (List.range groupAB.count).map
          (fun j => deviceFromPairs srcMountPath
            (pairsAtIdx (groupAB.paths.zip (groupMatchLists resolveAB groupAB)) i) j))) :=
  ⟨by decide, by decide, by decide,
    discoverGroup_caps_at_min_times_count resolveAB groupAB (by decide)⟩

set_option maxRecDepth 40000 in
/-- Witness for claim C6 on a one-member, one-match input. -/
theorem unit_id_sha1_witness :
    discover resolveTiny dsTiny = some ((discover resolveTiny dsTiny).getD []) ∧
    ∀ d ∈ (discover resolveTiny dsTiny).getD [], ∃ g ∈ dsTiny.groups, ∃ i j,
      i < lengthCalc (groupMatchLists resolveTiny g) ∧ j < g.count ∧
      d.id = hexLower (sha1 (utf8Bytes (Nat.repr j) ++
        bytesOf (pairsAtIdx (g.paths.zip (groupMatchLists resolveTiny g)) i))) ∧
      ∀ c ∈ d.id.data, c ∈ "0123456789abcdef".data :=
  ⟨by decide, unit_id_sha1_of_index_and_paths resolveTiny dsTiny _ (by decide)⟩

/-- Witness for claim C7: an absent id fails the whole call, and a
duplicated present id is honored twice in request order. -/
theorem allocate_all_or_nothing_witness :
    (∃ r ∈ [["x"]], ∃ id ∈ r, lookupDM [("a", dA)] id = none) ∧
    (∃ e, Allocate [("a", dA)] [["x"]] = .error e) ∧
    (∀ r ∈ [["a", "a"]], ∀ id ∈ r, ∃ d, lookupDM [("a", dA)] id = some d ∧
      d.health = Healthy) ∧
    Allocate [("a", dA)] [["a", "a"]] = .ok ([["a", "a"]].map (fun r =>
      ⟨r.flatMap (fun id => (lookupD [("a", dA)] id).deviceSpecs),
       r.flatMap (fun id => (lookupD [("a", dA)] id).mounts)⟩)) :=
  ⟨by decide, (allocate_all_or_nothing [("a", dA)] [["x"]]).1 (by decide), by decide,
    (allocate_all_or_nothing [("a", dA)] [["a", "a"]]).2 (by decide)⟩

/-- Witness for claim C8: vendor and product match but the serial does
not, so the search returns nothing. -/
theorem searchUSB_serial_exact_witness :
    (∀ d ∈ [usbDevW], d.serial ≠ some "52") ∧
    searchUSBDevicesS [usbDevW] 4176 1031 (some "52") = [] :=
  ⟨by decide, (searchUSB_serial_exact [usbDevW] 4176 1031 "52").2 (by decide)⟩

set_option maxRecDepth 40000 in
/-- Witness for claim C10 on a one-member, one-match input. -/
theorem devices_always_healthy_witness :
    discover resolveTiny dsTiny = some ((discover resolveTiny dsTiny).getD []) ∧
    ((∀ d ∈ (discover resolveTiny dsTiny).getD [], d.health = Healthy) ∧
     (∀ kv ∈ (refreshStep [] ((discover resolveTiny dsTiny).getD [])).2,
        kv.2.health = Healthy) ∧
     (∀ x, Allocate (refreshStep [] ((discover resolveTiny dsTiny).getD [])).2 [["q"]] ≠
        .error (.notHealthy x))) :=
  ⟨by decide, devices_always_healthy resolveTiny dsTiny _ [] [["q"]] (by decide)⟩

end GDP
